import Mathlib

/-! # eth-validator-api: the reward computation of `main.go`

A shallow embedding of the reward engine of `src/main.go` (slot resolution,
static subsidy, burnt fees, fee aggregation over cached receipts, MEV
detection) together with theorems about it.

Conventions of the embedding

* `*big.Int` results are `Int`; quantities read off the chain (values, base
  fee, gas price) are unsigned on the wire and are `Nat`.
* `uint64` fields are `Nat`; the conversion `int64(x)` is `int64OfUint64`,
  which reduces modulo `2^64` and reinterprets the top bit as the sign.
* A run-time panic (nil dereference, failed type assertion, `panic(err)`) is
  the result `none` of an `Option`-valued function.
* Go maps are association lists read with `mapGet`; a write puts the new
  entry in front, which shadows an older entry of the same key.
* The process-wide mutable state (receipt cache) is passed explicitly as
  `State`; it also records the calls made to the execution client.
* The external collaborators (consensus REST client, execution RPC client,
  builder registry file) are the fields of `World`, and so is the library
  function `chunks.Split`, of which only the concatenation of its pieces is
  assumed.
* A pointer the program dereferences unchecked (`*types.Receipt`, the
  `EffectiveGasPrice` of a receipt) is an `Option`, `none` being nil.
-/

namespace EthValidatorApi

/-! ## Constants (main.go 28-33) -/

def byzantiumBlockNumber : Int := 4370000
def constantinopleBlockNumber : Int := 7280000
def theMergeBlockNumber : Int := 15537392

/-! ## Data model -/

/-- A `common.Address`: 20 bytes, read as a number below `2^160`. -/
abbrev Address := Fin (2 ^ 160)

/-- A `common.Hash`: 32 bytes, read as a number. -/
abbrev Hash := Nat

/-- The fields of `types.Receipt` that the program reads. `EffectiveGasPrice`
is a `*big.Int`; `none` is the nil pointer of a receipt that came without a
price. -/
structure Receipt where
  GasUsed : Nat
  EffectiveGasPrice : Option Nat
deriving DecidableEq, Repr

/-- The fields of `types.Transaction` that the program reads. `From` is the
result of `core.TransactionToMessage`: the recovered sender, or `none` when
the recovery returns an error. -/
structure Transaction where
  Hash : Hash
  From : Option Address
  Value : Nat
deriving DecidableEq, Repr

/-- The fields of `types.Block` that the program reads. `BaseFee` is `none`
for a header without a base fee (`block.BaseFee() == nil`). -/
structure Block where
  Number : Nat
  Coinbase : Address
  BaseFee : Option Nat
  GasUsed : Nat
  Transactions : List Transaction
deriving DecidableEq, Repr

/-- The struct `BlockRewardResponse` (main.go 274-278). -/
structure BlockRewardResponse where
  Mev : Bool
  BlockReward : Int
  MevReward : Int
deriving DecidableEq, Repr

/-- Go's conversion `int64(x)` of a `uint64` (also `big.Int.Int64` of a
non-negative number): the low 64 bits, the top bit read as the sign. -/
def int64OfUint64 (x : Nat) : Int :=
  if x % 2 ^ 64 < 2 ^ 63 then ((x % 2 ^ 64 : Nat) : Int)
  else ((x % 2 ^ 64 : Nat) : Int) - 2 ^ 64

/-- Reading a Go map: the first entry of the key. -/
def mapGet {κ ν : Type} [DecidableEq κ] : List (κ × ν) → κ → Option ν
  | [], _ => none
  | (k, v) :: rest, key => if k = key then some v else mapGet rest key

/-! ## Static subsidy and burnt fees (main.go 325-347) -/

/-- The function `calculateBlockReward` (main.go 334-347). -/
def calculateBlockReward (blockNumber : Int) : Int :=
  if blockNumber < byzantiumBlockNumber ∧ blockNumber > 0 then
    5000000000000000000
  else if blockNumber ≥ byzantiumBlockNumber ∧ blockNumber < constantinopleBlockNumber then
    3000000000000000000
  else if blockNumber ≥ constantinopleBlockNumber ∧ blockNumber ≤ theMergeBlockNumber then
    2000000000000000000
  else if blockNumber > theMergeBlockNumber then
    0
  else
    0

/-- The function `calculateBurntFees` (main.go 325-332):
`big.NewInt(0).Mul(baseFee, big.NewInt(int64(block.GasUsed())))`. -/
def calculateBurntFees (block : Block) : Int :=
  match block.BaseFee with
  | none => 0
  | some baseFee => (baseFee : Int) * int64OfUint64 block.GasUsed

/-! ## Decoded JSON and the collaborators -/

/-- A value produced by `encoding/json` when decoding into `interface{}`:
`nil`, `bool`, `float64`, `string`, `[]interface{}` or
`map[string]interface{}`. A `float64` is represented by the rational number
it denotes (the decoder produces neither NaN nor an infinity), so that
`code.(float64) == 404` is equality with `404`. -/
inductive JValue where
  | null : JValue
  | bool : Bool → JValue
  | num : ℚ → JValue
  | str : String → JValue
  | arr : List JValue → JValue
  | obj : List (String × JValue) → JValue

/-- A decoded `map[string]interface{}`. -/
abbrev JObject := List (String × JValue)

/-- The receipt cache `map[common.Hash]*types.Receipt` (main.go 511-514); a
stored `none` is a stored nil pointer. -/
abbrev ReceiptCache := List (Hash × Option Receipt)

/-- The mutable state of the process that the reward path touches, and the
record of the requests it has sent to the execution client. -/
structure State where
  receiptCache : ReceiptCache
  receiptCalls : List Hash
  blockCalls : List String
deriving DecidableEq

/-- The collaborators. `getSlot` is the function of that name (main.go
108-122): the decoded body, or the error of the request or of the decoding.
`transactionReceipt` is the receipt pointer that `Client.TransactionReceipt`
returns, `none` being nil (the error it returns with it is only logged). `blockByHash` is
`Client.BlockByHash` after `common.HexToHash`. `mev_builders` is the global
of that name, filled from `mev.json` at start-up. `chunksSplit` is
`chunks.Split` of the library `go-deeper/chunks`, whose source is not part of
the repository: it is a parameter, and the lemmas that need it assume of it
only that its pieces, in order, make up the slice. -/
structure World where
  getSlot : Int → Except String JObject
  transactionReceipt : Hash → Option Receipt
  blockByHash : String → Except String Block
  mev_builders : List (String × String)
  chunksSplit : List Transaction → Nat → List (List Transaction)

/-! ## Receipt cache (main.go 516-527) and receipt lookup (main.go 349-364) -/

/-- The method `ReceiptCache.Get`: `val, ok := rc.cache[key]`. -/
def ReceiptCache.Get (rc : ReceiptCache) (key : Hash) : Option Receipt × Bool :=
  match mapGet rc key with
  | some val => (val, true)
  | none => (none, false)

/-- The method `ReceiptCache.Set`: `rc.cache[key] = value`. -/
def ReceiptCache.Set (rc : ReceiptCache) (key : Hash) (value : Option Receipt) : ReceiptCache :=
  (key, value) :: rc

/-- The function `getTransactionReceipt` (main.go 349-364). -/
def getTransactionReceipt (w : World) (s : State) (tx : Transaction) : Option Receipt × State :=
  match ReceiptCache.Get s.receiptCache tx.Hash with
  | (val, true) => (val, s)
  | (_, false) =>
    let receipt := w.transactionReceipt tx.Hash
    (receipt, { s with receiptCache := ReceiptCache.Set s.receiptCache tx.Hash receipt,
                       receiptCalls := s.receiptCalls ++ [tx.Hash] })

/-! ## Fee aggregation (main.go 366-427) -/

/-- The function `transactionFee` (main.go 366-374). The channel is the list
of the values sent so far. `receipt.GasUsed` on a nil receipt is a nil
dereference, and so is `Mul` on a nil `receipt.EffectiveGasPrice`. -/
def transactionFee (w : World) (tx : Transaction) (acc : State × List Int) :
    Option (State × List Int) :=
  match getTransactionReceipt w acc.1 tx with
  | (none, _) => none
  | (some receipt, s) =>
    let gas : Int := int64OfUint64 receipt.GasUsed
    match receipt.EffectiveGasPrice with
    | none => none
    | some price =>
      let tx_fee : Int := (price : Int) * gas
      some (s, acc.2 ++ [tx_fee])

/-- A split of a list into consecutive pieces of `size` elements, the last
one possibly shorter. -/
def splitEveryAux {α : Type} (size : Nat) : Nat → List α → List (List α)
  | 0, _ => []
  | _, [] => []
  | fuel + 1, x :: xs => (x :: xs).take size :: splitEveryAux size fuel ((x :: xs).drop size)

/-- One possible `chunksSplit`, the one of the sample world: consecutive
pieces of `size` elements. -/
def splitEvery {α : Type} (slice : List α) (size : Nat) : List (List α) :=
  splitEveryAux size slice.length slice

/-- The inner loop of `transactionFees` (main.go 410-417): one unit of work
per transaction of the batch, then `wg.Wait()`. The units, goroutines in the
source, are run one after the other in the order of the slice: the fees sent
do not depend on the schedule, the record of client calls is the one of this
schedule (two overlapping lookups of one hash may both reach the client). -/
def runBatch (w : World) : List Transaction → State × List Int → Option (State × List Int)
  | [], acc => some acc
  | tx :: rest, acc =>
    match transactionFee w tx acc with
    | none => none
    | some acc1 => runBatch w rest acc1

/-- The outer loop of `transactionFees` (main.go 409-418). -/
def runBatches (w : World) : List (List Transaction) → State × List Int → Option (State × List Int)
  | [], acc => some acc
  | slice :: rest, acc =>
    match runBatch w slice acc with
    | none => none
    | some acc1 => runBatches w rest acc1

/-- The function `transactionFees` (main.go 401-427). -/
def transactionFees (w : World) (s : State) (block : Block) : Option (Int × State) :=
  let slices := w.chunksSplit block.Transactions 10
  match runBatches w slices (s, []) with
  | none => none
  | some (s1, chn) => some (chn.foldl (fun sum v => sum + v) 0, s1)

/-! ## MEV detection (main.go 280-298, 429-435) -/

/-- The string `strings.ToLower(addr.Hex())`: the characters 0x followed by
the 40 lower-case hexadecimal digits of the address. -/
def lowerHex (a : Address) : String :=
  "0x" ++ String.mk ((List.range 40).map fun i => Nat.digitChar (a.val / 16 ^ (39 - i) % 16))

/-- The function `isMev` (main.go 429-435). -/
def isMev (w : World) (block : Block) : Bool :=
  let fee_recipient := lowerHex block.Coinbase
  match mapGet w.mev_builders fee_recipient with
  | some _ => true
  | none => false

/-- The loop of `findMevRewardTransaction` (main.go 282-295). -/
def findMevLoop (coinbase : Address) : List Transaction → Int → Option Int
  | [], value => some value
  | tx :: rest, value =>
    match tx.From with
    | none => none
    | some sender =>
      if sender = coinbase then
        if value < (tx.Value : Int) then findMevLoop coinbase rest (tx.Value : Int)
        else findMevLoop coinbase rest value
      else findMevLoop coinbase rest value

/-- The function `findMevRewardTransaction` (main.go 280-298). -/
def findMevRewardTransaction (block : Block) : Option Int :=
  findMevLoop block.Coinbase block.Transactions 0

/-! ## Block reward (main.go 300-323) -/

/-- The function `blockReward` (main.go 300-323). `big.Int.Div` is Euclidean
division, `Int.ediv`. `int` is 64 bits wide (the constants of
`calculateBlockReward` do not fit a narrower one), so `int(x.Int64())` is
`int64OfUint64`. -/
def blockReward (w : World) (s : State) (block : Block) : Option (BlockRewardResponse × State) :=
  let mev := isMev w block
  let burntFees := calculateBurntFees block
  match (if mev then findMevRewardTransaction block else some 0) with
  | none => none
  | some mevReward =>
    let staticBlockReward := calculateBlockReward (int64OfUint64 block.Number)
    match transactionFees w s block with
    | none => none
    | some (transactionFees, s1) =>
      some ({ Mev := mev,
              BlockReward := Int.ediv (transactionFees - burntFees + staticBlockReward) 1000000000,
              MevReward := Int.ediv mevReward 1000000000 }, s1)

/-! ## Slot resolution (main.go 179-193) and reward for a slot (main.go 245-272) -/

/-- The type assertion `x.(map[string]interface{})` on a map read. -/
def assertObject : Option JValue → Option JObject
  | some (JValue.obj m) => some m
  | _ => none

/-- The type assertion `x.(string)` on a map read. -/
def assertString : Option JValue → Option String
  | some (JValue.str v) => some v
  | _ => none

/-- The expression of main.go 192: the chain of reads and assertions down to
`block_hash`. -/
def readBlockHash (jResp : JObject) : Option String :=
  match assertObject (mapGet jResp "data") with
  | none => none
  | some data =>
    match assertObject (mapGet data "message") with
    | none => none
    | some message =>
      match assertObject (mapGet message "body") with
      | none => none
      | some body =>
        match assertObject (mapGet body "execution_payload") with
        | none => none
        | some payload => assertString (mapGet payload "block_hash")

/-- The function `getBlockForSlot` (main.go 179-193): the block hash, the
error (`none` is nil) and `notFound`. -/
def getBlockForSlot (w : World) (slot : Int) : Option (String × Option String × Bool) :=
  match w.getSlot slot with
  | Except.error err => some ("", some err, false)
  | Except.ok jResp =>
    match mapGet jResp "code" with
    | some (JValue.num code) =>
      if code = 404 then some ("", none, true)
      else (readBlockHash jResp).map fun h => (h, none, false)
    | some _ => none
    | none => (readBlockHash jResp).map fun h => (h, none, false)

/-- The function `getBlockByHash` (main.go 450-461). -/
def getBlockByHash (w : World) (s : State) (blockHash : String) : Except String Block × State :=
  (w.blockByHash blockHash, { s with blockCalls := s.blockCalls ++ [blockHash] })

/-- The response built three times in `rewardForSlot`. -/
def zeroResponse : BlockRewardResponse :=
  { Mev := false, BlockReward := 0, MevReward := 0 }

/-- The function `rewardForSlot` (main.go 245-272). -/
def rewardForSlot (w : World) (s : State) (slot : Int) :
    Option ((BlockRewardResponse × Option String × Bool) × State) :=
  match getBlockForSlot w slot with
  | none => none
  | some (_, some err, _) => some ((zeroResponse, some err, false), s)
  | some (blockHash, none, notFound) =>
    if notFound then some ((zeroResponse, none, true), s)
    else
      match getBlockByHash w s blockHash with
      | (Except.error err, s1) => some ((zeroResponse, some err, false), s1)
      | (Except.ok block, s1) =>
        match blockReward w s1 block with
        | none => none
        | some (response, s2) => some ((response, none, false), s2)

/-! ## Reference quantities used in the statements -/

/-- The receipt a lookup of hash `h` yields in state `s`: the cached entry
when there is one, the answer of the client otherwise. -/
def receiptOf (w : World) (s : State) (h : Hash) : Option Receipt :=
  match mapGet s.receiptCache h with
  | some val => val
  | none => w.transactionReceipt h

/-- The fee that `transactionFee` sends for a receipt; `none` for a receipt
without a price. -/
def sentFee (r : Receipt) : Option Int :=
  match r.EffectiveGasPrice with
  | none => none
  | some price => some ((price : Int) * int64OfUint64 r.GasUsed)

/-- The fee that `transactionFee` sends for the hash `h` in state `s`; `none`
where there is no receipt, or a receipt without a price. -/
def feeOf (w : World) (s : State) (h : Hash) : Option Int :=
  match receiptOf w s h with
  | none => none
  | some r => sentFee r

/-- The fee that `transactionFee` sends for a transaction in state `s`
(`0` stands in where it sends none). -/
def sentFeeOf (w : World) (s : State) (tx : Transaction) : Int :=
  (feeOf w s tx.Hash).getD 0

/-- The fee of a receipt as the specification words it:
`gasUsed * effectiveGasPrice`, without any conversion. -/
def specFee (r : Receipt) : Option Int :=
  match r.EffectiveGasPrice with
  | none => none
  | some price => some ((r.GasUsed : Int) * (price : Int))

/-- The values of the transactions of a block whose sender is the coinbase. -/
def coinbaseValues (block : Block) : List Nat :=
  (block.Transactions.filter fun tx => decide (tx.From = some block.Coinbase)).map
    fun tx => tx.Value

/-- The value found below a decoded object by following a path of keys, every
step but the last being an object. -/
def valueAt : JObject → List String → Option JValue
  | _, [] => none
  | o, [k] => mapGet o k
  | o, k :: k2 :: ks =>
    match mapGet o k with
    | some (JValue.obj m) => valueAt m (k2 :: ks)
    | _ => none

/-- The expected shape of a block-by-slot body, in the words of the
specification: a string at `data.message.body.execution_payload.block_hash`. -/
def hasExpectedShape (jResp : JObject) : Bool :=
  match valueAt jResp ["data", "message", "body", "execution_payload", "block_hash"] with
  | some (JValue.str _) => true
  | _ => false

/-! ## Concrete inputs -/

/-- The state at start-up: empty cache, no request sent. -/
def emptyState : State :=
  { receiptCache := [], receiptCalls := [], blockCalls := [] }

/-- The address of a registered builder. -/
def builderAddress : Address := 0x95222290dd7278aa3ddd389cc1e1d165cc4bafe5

/-- A consensus body of a skipped slot. -/
def skippedBody : JObject :=
  [("code", JValue.num 404), ("message", JValue.str "NOT_FOUND: beacon block at slot: 9208672")]

/-- A consensus body reporting another error code. -/
def serverErrorBody : JObject :=
  [("code", JValue.num 500), ("message", JValue.str "Internal server error")]

/-- A world with one registered builder, receipts for the hashes 1, 2 and 3,
a receipt without a price for the hash 8, a receipt with the top gas bit set
for the hash 9 and no receipt elsewhere, a skipped slot 9208672, an error body
at slot 500 and a failing request elsewhere. -/
def sampleWorld : World :=
  { getSlot := fun slot =>
      if slot = 9208672 then Except.ok skippedBody
      else if slot = 500 then Except.ok serverErrorBody
      else Except.error "connection refused"
    transactionReceipt := fun h =>
      if h = 1 then some { GasUsed := 21000, EffectiveGasPrice := some 7000000000 }
      else if h = 2 then some { GasUsed := 21000, EffectiveGasPrice := some 6000000000 }
      else if h = 3 then some { GasUsed := 21000, EffectiveGasPrice := some 6000000000 }
      else if h = 8 then some { GasUsed := 21000, EffectiveGasPrice := none }
      else if h = 9 then some { GasUsed := 9223372036854775808, EffectiveGasPrice := some 1 }
      else none
    blockByHash := fun _ => Except.error "not found"
    mev_builders := [("0x95222290dd7278aa3ddd389cc1e1d165cc4bafe5", "beaverbuild")]
    chunksSplit := splitEvery }

/-- A block of the registered builder: one foreign transfer and two transfers
sent by the builder itself. -/
def builderBlock : Block :=
  { Number := 19992375
    Coinbase := builderAddress
    BaseFee := some 5000000000
    GasUsed := 63000
    Transactions :=
      [ { Hash := 1, From := some 77, Value := 5000000000000000000 },
        { Hash := 2, From := some builderAddress, Value := 3000000005 },
        { Hash := 3, From := some builderAddress, Value := 7000000001 } ] }

/-- The state after the three receipts of `builderBlock` have been fetched. -/
def builderStateAfter : State :=
  { receiptCache :=
      [ (3, some { GasUsed := 21000, EffectiveGasPrice := some 6000000000 }),
        (2, some { GasUsed := 21000, EffectiveGasPrice := some 6000000000 }),
        (1, some { GasUsed := 21000, EffectiveGasPrice := some 7000000000 }) ]
    receiptCalls := [1, 2, 3]
    blockCalls := [] }

/-- A block of an unregistered fee recipient that holds a large transfer sent
by the fee recipient and a transaction without recoverable sender. -/
def plainBlock : Block :=
  { Number := 19985005
    Coinbase := 7
    BaseFee := some 5000000000
    GasUsed := 42000
    Transactions :=
      [ { Hash := 1, From := some 7, Value := 1000000000000000000000000000000 },
        { Hash := 2, From := none, Value := 1 } ] }

/-- A block after the merge without transactions whose header reports one
unit of gas at a base fee of one wei. -/
def deficitBlock : Block :=
  { Number := 15537393, Coinbase := 7, BaseFee := some 1, GasUsed := 1, Transactions := [] }

/-- A block whose header has the top bit of its gas-used field set. -/
def topBitBlock : Block :=
  { Number := 15537393, Coinbase := 7, BaseFee := some 1, GasUsed := 9223372036854775808,
    Transactions := [] }

/-- A block whose only transaction has a receipt with the top gas bit set. -/
def topBitReceiptBlock : Block :=
  { Number := 15537393, Coinbase := 7, BaseFee := none, GasUsed := 0,
    Transactions := [ { Hash := 9, From := some 77, Value := 0 } ] }

/-- A block with one transaction whose receipt is served and one (hash 4)
whose receipt fetch fails. -/
def lostReceiptBlock : Block :=
  { Number := 19985005, Coinbase := 7, BaseFee := none, GasUsed := 0,
    Transactions :=
      [ { Hash := 1, From := some 77, Value := 0 },
        { Hash := 4, From := some 77, Value := 0 } ] }

/-- A block of the registered builder, every sender recoverable, that holds a
transfer sent by the builder and a transaction (hash 4) whose receipt fetch
fails. -/
def builderLostReceiptBlock : Block :=
  { Number := 19992375
    Coinbase := builderAddress
    BaseFee := some 5000000000
    GasUsed := 42000
    Transactions :=
      [ { Hash := 2, From := some builderAddress, Value := 3000000005 },
        { Hash := 4, From := some 77, Value := 0 } ] }

/-- A block of an unregistered fee recipient that holds a large transfer sent
by the fee recipient and a transaction (hash 4) whose receipt fetch fails. -/
def plainLostReceiptBlock : Block :=
  { Number := 19985005
    Coinbase := 7
    BaseFee := some 5000000000
    GasUsed := 42000
    Transactions :=
      [ { Hash := 1, From := some 7, Value := 1000000000000000000000000000000 },
        { Hash := 4, From := some 77, Value := 0 } ] }

/-- A block whose only transaction (hash 8) has a receipt without a price. -/
def noPriceBlock : Block :=
  { Number := 19985005, Coinbase := 7, BaseFee := none, GasUsed := 0,
    Transactions := [ { Hash := 8, From := some 77, Value := 0 } ] }

/-! ## Sync committee of a slot (main.go 140-177, 475-491) -/

/-- A `mapset.Set[string]`: its members, each listed once. -/
abbrev StringSet := List String

/-- The call `mapset.NewSet[string]()`. -/
def newStringSet : StringSet := []

/-- The method `Add` of a `mapset.Set[string]`. -/
def StringSet.Add (set : StringSet) (v : String) : StringSet :=
  if v ∈ set then set else set ++ [v]

/-- The sync-committee cache `map[int]mapset.Set[string]` (main.go 475-478); a
stored `none` is a stored nil interface value. -/
abbrev CommitteeCache := List (Int × Option StringSet)

/-- The mutable state that the sync-committee path touches, and the record of
the requests it has sent to the sync-committee endpoint. -/
structure CommitteeState where
  syncCommitteeCache : CommitteeCache
  syncCommitteeCalls : List Int
deriving DecidableEq

/-- The consensus endpoint `eth/v1/beacon/states/<slot>/sync_committees` as
`getSyncCommitteeForSlot` reads it (main.go 145-159): the decoded body, or the
error of `http.Get` or of the decoding. -/
abbrev SyncCommitteeEndpoint := Int → Except String JObject

/-- The method `CommitteeCache.Get` (main.go 480-485): `val, ok := cc.cache[key]`. -/
def CommitteeCache.Get (cc : CommitteeCache) (key : Int) : Option StringSet × Bool :=
  match mapGet cc key with
  | some val => (val, true)
  | none => (none, false)

/-- The method `CommitteeCache.Set` (main.go 487-491): `cc.cache[key] = value`. -/
def CommitteeCache.Set (cc : CommitteeCache) (key : Int) (value : Option StringSet) :
    CommitteeCache :=
  (key, value) :: cc

/-- The type assertion `x.([]interface{})` on a map read. -/
def assertArray : Option JValue → Option (List JValue)
  | some (JValue.arr l) => some l
  | _ => none

/-- The loop of main.go 170-172: `validatorSet.Add(string(validator.(string)))`
for every element. -/
def addValidators : List JValue → StringSet → Option StringSet
  | [], validatorSet => some validatorSet
  | validator :: rest, validatorSet =>
    match assertString (some validator) with
    | none => none
    | some v => addValidators rest (StringSet.Add validatorSet v)

/-- The lines 168-176 of `getSyncCommitteeForSlot`: read the validators, build
the set, store it in the cache and return it. -/
def readAndStoreCommittee (cs : CommitteeState) (slot : Int) (jResp2 : JObject) :
    Option (Option StringSet × CommitteeState) :=
  match assertObject (mapGet jResp2 "data") with
  | none => none
  | some data =>
    match assertArray (mapGet data "validators") with
    | none => none
    | some validators =>
      match addValidators validators newStringSet with
      | none => none
      | some validatorSet =>
        some (some validatorSet,
          { cs with syncCommitteeCache :=
              CommitteeCache.Set cs.syncCommitteeCache slot (some validatorSet) })

/-- The function `getSyncCommitteeForSlot` (main.go 140-177). The result is
`none` when the call does not return: a failed type assertion, or the exit of
the process in `log.Fatalln` and `log.Fatal`. -/
def getSyncCommitteeForSlot (endpoint : SyncCommitteeEndpoint) (cs : CommitteeState)
    (slot : Int) : Option (Option StringSet × CommitteeState) :=
  match CommitteeCache.Get cs.syncCommitteeCache slot with
  | (val, true) => some (val, cs)
  | (_, false) =>
    let cs1 := { cs with syncCommitteeCalls := cs.syncCommitteeCalls ++ [slot] }
    match endpoint slot with
    | Except.error _ => none
    | Except.ok jResp2 =>
      match mapGet jResp2 "code" with
      | some (JValue.num code) =>
        if code = 404 then some (some newStringSet, cs1)
        else readAndStoreCommittee cs1 slot jResp2
      | some _ => none
      | none => readAndStoreCommittee cs1 slot jResp2

/-! ## Concrete inputs of the sync-committee path -/

/-- The state at start-up: empty committee cache, no request sent. -/
def emptyCommitteeState : CommitteeState :=
  { syncCommitteeCache := [], syncCommitteeCalls := [] }

/-- A sync-committee body of an unknown state. -/
def committeeNotFoundBody : JObject :=
  [("code", JValue.num 404), ("message", JValue.str "NOT_FOUND: beacon state not found")]

/-- A sync-committee body with three entries, one of them repeated. -/
def committeeBody : JObject :=
  [("execution_optimistic", JValue.bool false),
   ("data", JValue.obj
      [("validators", JValue.arr [JValue.str "11", JValue.str "22", JValue.str "11"])])]

/-- An endpoint that knows the committee of slot 9197117, answers code 404 for
slot 99999999 and fails elsewhere. -/
def sampleEndpoint : SyncCommitteeEndpoint := fun slot =>
  if slot = 9197117 then Except.ok committeeBody
  else if slot = 99999999 then Except.ok committeeNotFoundBody
  else Except.error "connection refused"

/-! ## Lemmas: receipt lookup -/

theorem receiptCache_get_eq (rc : ReceiptCache) (key : Hash) :
    ReceiptCache.Get rc key = ((mapGet rc key).getD none, (mapGet rc key).isSome) := by
  unfold ReceiptCache.Get
  cases mapGet rc key <;> rfl

theorem getTransactionReceipt_hit (w : World) (s : State) (tx : Transaction)
    (val : Option Receipt) (h : mapGet s.receiptCache tx.Hash = some val) :
    getTransactionReceipt w s tx = (val, s) := by
  simp [getTransactionReceipt, ReceiptCache.Get, h]

theorem getTransactionReceipt_miss (w : World) (s : State) (tx : Transaction)
    (h : mapGet s.receiptCache tx.Hash = none) :
    getTransactionReceipt w s tx =
      (w.transactionReceipt tx.Hash,
        { s with receiptCache := (tx.Hash, w.transactionReceipt tx.Hash) :: s.receiptCache,
                 receiptCalls := s.receiptCalls ++ [tx.Hash] }) := by
  simp [getTransactionReceipt, ReceiptCache.Get, ReceiptCache.Set, h]

theorem getTransactionReceipt_fst (w : World) (s : State) (tx : Transaction) :
    (getTransactionReceipt w s tx).1 = receiptOf w s tx.Hash := by
  cases h : mapGet s.receiptCache tx.Hash with
  | none => rw [getTransactionReceipt_miss w s tx h]; simp [receiptOf, h]
  | some val => rw [getTransactionReceipt_hit w s tx val h]; simp [receiptOf, h]

theorem getTransactionReceipt_receiptOf (w : World) (s : State) (tx : Transaction) (k : Hash) :
    receiptOf w (getTransactionReceipt w s tx).2 k = receiptOf w s k := by
  cases h : mapGet s.receiptCache tx.Hash with
  | some val => rw [getTransactionReceipt_hit w s tx val h]
  | none =>
    rw [getTransactionReceipt_miss w s tx h]
    by_cases hk : tx.Hash = k
    · subst hk; simp [receiptOf, mapGet, h]
    · simp [receiptOf, mapGet, hk]

/-! ## Lemmas: fee aggregation -/

theorem feeOf_getTransactionReceipt (w : World) (s : State) (tx : Transaction) (k : Hash) :
    feeOf w (getTransactionReceipt w s tx).2 k = feeOf w s k := by
  simp only [feeOf, getTransactionReceipt_receiptOf]

theorem transactionFee_eq (w : World) (tx : Transaction) (s : State) (chn : List Int) :
    transactionFee w tx (s, chn) =
      match feeOf w s tx.Hash with
      | none => none
      | some f => some ((getTransactionReceipt w s tx).2, chn ++ [f]) := by
  have h1 := getTransactionReceipt_fst w s tx
  unfold transactionFee feeOf
  rw [← h1]
  generalize getTransactionReceipt w s tx = p
  obtain ⟨a, b⟩ := p
  cases a with
  | none => rfl
  | some r =>
    simp only [sentFee]
    cases r.EffectiveGasPrice <;> rfl

theorem transactionFee_some (w : World) (tx : Transaction) (s : State) (chn : List Int)
    (f : Int) (h : feeOf w s tx.Hash = some f) :
    transactionFee w tx (s, chn) =
      some ((getTransactionReceipt w s tx).2, chn ++ [f]) := by
  rw [transactionFee_eq, h]

theorem transactionFee_none (w : World) (tx : Transaction) (s : State) (chn : List Int)
    (h : feeOf w s tx.Hash = none) :
    transactionFee w tx (s, chn) = none := by
  rw [transactionFee_eq, h]

theorem runBatch_append (w : World) (l1 l2 : List Transaction) (acc : State × List Int) :
    runBatch w (l1 ++ l2) acc = (runBatch w l1 acc).bind (runBatch w l2) := by
  induction l1 generalizing acc with
  | nil => rfl
  | cons tx rest ih =>
    simp only [List.cons_append, runBatch]
    cases transactionFee w tx acc with
    | none => rfl
    | some acc1 => exact ih acc1

/-- The outcome of the batches is the outcome of one run over their
concatenation: it does not depend on where the slice is cut. -/
theorem runBatches_eq_runBatch (w : World) (ls : List (List Transaction))
    (acc : State × List Int) :
    runBatches w ls acc = runBatch w ls.flatten acc := by
  induction ls generalizing acc with
  | nil => rfl
  | cons l rest ih =>
    simp only [runBatches, List.flatten_cons, runBatch_append]
    cases runBatch w l acc with
    | none => rfl
    | some acc1 => exact ih acc1

theorem splitEveryAux_flatten {α : Type} (size : Nat) (hsize : 0 < size) (fuel : Nat)
    (l : List α) (hfuel : l.length ≤ fuel) :
    (splitEveryAux size fuel l).flatten = l := by
  induction fuel generalizing l with
  | zero =>
    have : l = [] := List.length_eq_zero.mp (Nat.le_zero.mp hfuel)
    subst this
    rfl
  | succ n ih =>
    cases l with
    | nil => rfl
    | cons x xs =>
      simp only [splitEveryAux, List.flatten_cons]
      rw [ih]
      · exact List.take_append_drop size (x :: xs)
      · simp only [List.length_drop, List.length_cons] at hfuel ⊢
        omega

theorem splitEvery_flatten {α : Type} (l : List α) : (splitEvery l 10).flatten = l :=
  splitEveryAux_flatten 10 (by decide) l.length l (Nat.le_refl _)

theorem sampleWorld_chunksSplit (l : List Transaction) :
    (sampleWorld.chunksSplit l 10).flatten = l :=
  splitEvery_flatten l

theorem runBatch_ok (w : World) (l : List Transaction) (s : State) (chn : List Int)
    (h : ∀ tx ∈ l, (feeOf w s tx.Hash).isSome = true) :
    ∃ s1, runBatch w l (s, chn) = some (s1, chn ++ l.map (sentFeeOf w s)) ∧
      ∀ k, receiptOf w s1 k = receiptOf w s k := by
  induction l generalizing s chn with
  | nil => exact ⟨s, by simp [runBatch], fun _ => rfl⟩
  | cons tx rest ih =>
    have htx := h tx (List.mem_cons_self _ _)
    obtain ⟨f, hf⟩ := Option.isSome_iff_exists.mp htx
    have hkeep := getTransactionReceipt_receiptOf w s tx
    have hkeepFee := feeOf_getTransactionReceipt w s tx
    have hrest : ∀ t ∈ rest,
        (feeOf w (getTransactionReceipt w s tx).2 t.Hash).isSome = true := by
      intro t ht
      rw [hkeepFee]
      exact h t (List.mem_cons_of_mem _ ht)
    obtain ⟨s1, hrun, hs1⟩ := ih (getTransactionReceipt w s tx).2 (chn ++ [f]) hrest
    refine ⟨s1, ?_, fun k => by rw [hs1, hkeep]⟩
    simp only [runBatch, transactionFee_some w tx s chn f hf, hrun]
    have hmap : rest.map (sentFeeOf w (getTransactionReceipt w s tx).2) =
        rest.map (sentFeeOf w s) := by
      apply List.map_congr_left
      intro t _
      simp only [sentFeeOf, hkeepFee]
    simp [hmap, sentFeeOf, hf]

theorem runBatch_fault (w : World) (l : List Transaction) (s : State) (chn : List Int)
    (h : ∃ tx ∈ l, feeOf w s tx.Hash = none) :
    runBatch w l (s, chn) = none := by
  induction l generalizing s chn with
  | nil => obtain ⟨tx, htx, _⟩ := h; cases htx
  | cons tx rest ih =>
    cases hf : feeOf w s tx.Hash with
    | none => simp [runBatch, transactionFee_none w tx s chn hf]
    | some f =>
      simp only [runBatch, transactionFee_some w tx s chn f hf]
      apply ih
      obtain ⟨t, ht, htn⟩ := h
      rcases List.mem_cons.mp ht with rfl | ht
      · rw [hf] at htn; cases htn
      · exact ⟨t, ht, by rw [feeOf_getTransactionReceipt]; exact htn⟩

theorem foldl_add_eq_sum (l : List Int) : l.foldl (fun sum v => sum + v) 0 = l.sum := by
  rw [List.sum_eq_foldl]

theorem transactionFees_eq_sum (w : World) (s : State) (block : Block)
    (hsplit : (w.chunksSplit block.Transactions 10).flatten = block.Transactions)
    (h : ∀ tx ∈ block.Transactions, (feeOf w s tx.Hash).isSome = true) :
    ∃ s1, transactionFees w s block =
        some ((block.Transactions.map (sentFeeOf w s)).sum, s1) ∧
      ∀ k, receiptOf w s1 k = receiptOf w s k := by
  obtain ⟨s1, hrun, hs1⟩ := runBatch_ok w block.Transactions s [] h
  refine ⟨s1, ?_, hs1⟩
  unfold transactionFees
  simp only [runBatches_eq_runBatch, hsplit, hrun, List.nil_append, foldl_add_eq_sum]

/-- The aggregation faults as soon as one transaction of the block has no
receipt, or a receipt without a price. -/
theorem transactionFees_fault (w : World) (s : State) (block : Block)
    (hsplit : (w.chunksSplit block.Transactions 10).flatten = block.Transactions)
    (h : ∃ tx ∈ block.Transactions, feeOf w s tx.Hash = none) :
    transactionFees w s block = none := by
  unfold transactionFees
  simp only [runBatches_eq_runBatch, hsplit, runBatch_fault w block.Transactions s [] h]

/-- The total does not depend on the order of the transactions. -/
theorem transactionFees_perm (w : World) (s : State) (b1 b2 : Block)
    (hsplit1 : (w.chunksSplit b1.Transactions 10).flatten = b1.Transactions)
    (hsplit2 : (w.chunksSplit b2.Transactions 10).flatten = b2.Transactions)
    (hp : b1.Transactions.Perm b2.Transactions)
    (h : ∀ tx ∈ b1.Transactions, (feeOf w s tx.Hash).isSome = true) :
    (transactionFees w s b1).map Prod.fst = (transactionFees w s b2).map Prod.fst ∧
      (transactionFees w s b1).isSome = true := by
  have h2 : ∀ tx ∈ b2.Transactions, (feeOf w s tx.Hash).isSome = true :=
    fun tx htx => h tx (hp.mem_iff.mpr htx)
  obtain ⟨s1, e1, _⟩ := transactionFees_eq_sum w s b1 hsplit1 h
  obtain ⟨s2, e2, _⟩ := transactionFees_eq_sum w s b2 hsplit2 h2
  rw [e1, e2]
  simp only [Option.map_some', Option.isSome_some, and_true, Option.some.injEq]
  exact (hp.map _).sum_eq

/-- Where a receipt does not have its top gas bit set, the sent fee is the
product of the specification. -/
theorem sentFee_eq_specFee (r : Receipt) (h : r.GasUsed < 2 ^ 63) : sentFee r = specFee r := by
  unfold sentFee specFee int64OfUint64
  have h1 : r.GasUsed % 2 ^ 64 = r.GasUsed := Nat.mod_eq_of_lt (by omega)
  cases r.EffectiveGasPrice with
  | none => rfl
  | some price =>
    simp only [h1, if_pos h]
    rw [mul_comm]

/-! ## Lemmas: MEV scan -/

theorem findMevLoop_spec (cb : Address) (l : List Transaction) (v : Nat)
    (h : ∀ tx ∈ l, tx.From.isSome = true) :
    ∃ M : Nat, findMevLoop cb l (v : Int) = some (M : Int) ∧ v ≤ M ∧
      (∀ x ∈ (l.filter fun tx => decide (tx.From = some cb)).map (fun tx => tx.Value), x ≤ M) ∧
      (M = v ∨ M ∈ (l.filter fun tx => decide (tx.From = some cb)).map (fun tx => tx.Value)) := by
  induction l generalizing v with
  | nil => exact ⟨v, rfl, Nat.le_refl _, by simp, Or.inl rfl⟩
  | cons tx rest ih =>
    have hrest : ∀ t ∈ rest, t.From.isSome = true := fun t ht => h t (List.mem_cons_of_mem _ ht)
    obtain ⟨sender, hs⟩ := Option.isSome_iff_exists.mp (h tx (List.mem_cons_self _ _))
    by_cases hcb : sender = cb
    · subst hcb
      by_cases hlt : (v : Int) < (tx.Value : Int)
      · obtain ⟨M, hM, hle, hall, hmem⟩ := ih tx.Value hrest
        have hv : v < tx.Value := by exact_mod_cast hlt
        refine ⟨M, ?_, by omega, ?_, ?_⟩
        · simp [findMevLoop, hs, hlt, hM]
        · intro x hx
          simp only [List.filter_cons, hs, decide_True, if_true, List.map_cons,
            List.mem_cons] at hx
          rcases hx with rfl | hx
          · exact hle
          · exact hall x hx
        · right
          simp only [List.filter_cons, hs, decide_True, if_true, List.map_cons, List.mem_cons]
          rcases hmem with rfl | hmem
          · exact Or.inl rfl
          · exact Or.inr hmem
      · obtain ⟨M, hM, hle, hall, hmem⟩ := ih v hrest
        have hv : tx.Value ≤ v := by
          have : ¬ (v < tx.Value) := fun hc => hlt (by exact_mod_cast hc)
          omega
        refine ⟨M, ?_, hle, ?_, ?_⟩
        · simp [findMevLoop, hs, hlt, hM]
        · intro x hx
          simp only [List.filter_cons, hs, decide_True, if_true, List.map_cons,
            List.mem_cons] at hx
          rcases hx with rfl | hx
          · omega
          · exact hall x hx
        · rcases hmem with rfl | hmem
          · exact Or.inl rfl
          · right
            simp only [List.filter_cons, hs, decide_True, if_true, List.map_cons,
              List.mem_cons]
            exact Or.inr hmem
    · obtain ⟨M, hM, hle, hall, hmem⟩ := ih v hrest
      have hne : ¬ (tx.From = some cb) := by
        rw [hs]; intro hc; exact hcb (Option.some.inj hc)
      refine ⟨M, ?_, hle, ?_, ?_⟩
      · simp [findMevLoop, hs, hcb, hM]
      · intro x hx
        simp only [List.filter_cons, hne, decide_False, Bool.false_eq_true, if_false] at hx
        exact hall x hx
      · rcases hmem with rfl | hmem
        · exact Or.inl rfl
        · right
          simp only [List.filter_cons, hne, decide_False, Bool.false_eq_true, if_false]
          exact hmem

theorem isMev_eq_true_iff (w : World) (block : Block) :
    isMev w block = true ↔ (mapGet w.mev_builders (lowerHex block.Coinbase)).isSome = true := by
  cases h : mapGet w.mev_builders (lowerHex block.Coinbase) <;> simp [isMev, h]

/-! ## Lemmas: the assembled response -/

theorem blockReward_eq (w : World) (s s1 : State) (block : Block) (T mevReward : Int)
    (hmr : (if isMev w block = true then findMevRewardTransaction block else some 0)
      = some mevReward)
    (hT : transactionFees w s block = some (T, s1)) :
    blockReward w s block =
      some ({ Mev := isMev w block,
              BlockReward :=
                (T - calculateBurntFees block
                  + calculateBlockReward (int64OfUint64 block.Number)) / 10 ^ 9,
              MevReward := mevReward / 10 ^ 9 }, s1) := by
  have h9 : (10 : Int) ^ 9 = 1000000000 := by norm_num
  simp only [blockReward, hmr, hT, h9]
  rfl

/-! ## Lemmas: subsidy and burnt fees -/

theorem calculateBurntFees_no_baseFee (block : Block) (h : block.BaseFee = none) :
    calculateBurntFees block = 0 := by
  simp [calculateBurntFees, h]

theorem calculateBurntFees_exact (block : Block) (baseFee : Nat)
    (h : block.BaseFee = some baseFee) (hg : block.GasUsed < 2 ^ 63) :
    calculateBurntFees block = (baseFee : Int) * (block.GasUsed : Int) := by
  have h1 : block.GasUsed % 2 ^ 64 = block.GasUsed := Nat.mod_eq_of_lt (by omega)
  simp only [calculateBurntFees, h, int64OfUint64, h1, if_pos hg]

theorem calculateBurntFees_wrapped (block : Block) (baseFee : Nat)
    (h : block.BaseFee = some baseFee) (hg : 2 ^ 63 ≤ block.GasUsed)
    (hu : block.GasUsed < 2 ^ 64) :
    calculateBurntFees block = (baseFee : Int) * ((block.GasUsed : Int) - 2 ^ 64) := by
  have h1 : block.GasUsed % 2 ^ 64 = block.GasUsed := Nat.mod_eq_of_lt hu
  have h2 : ¬ block.GasUsed < 2 ^ 63 := by omega
  simp only [calculateBurntFees, h, int64OfUint64, h1, if_neg h2]

/-! ## Lemmas: slot resolution -/

theorem valueAt_cons (o : JObject) (k k2 : String) (ks : List String) :
    valueAt o (k :: k2 :: ks) =
      match assertObject (mapGet o k) with
      | none => none
      | some m => valueAt m (k2 :: ks) := by
  cases h : mapGet o k with
  | none => simp [valueAt, h, assertObject]
  | some v => cases v <;> simp [valueAt, h, assertObject]

theorem readBlockHash_eq (jResp : JObject) :
    readBlockHash jResp =
      assertString
        (valueAt jResp ["data", "message", "body", "execution_payload", "block_hash"]) := by
  simp only [readBlockHash, valueAt_cons]
  cases assertObject (mapGet jResp "data") with
  | none => rfl
  | some data =>
    dsimp only
    cases assertObject (mapGet data "message") with
    | none => rfl
    | some message =>
      dsimp only
      cases assertObject (mapGet message "body") with
      | none => rfl
      | some body =>
        dsimp only
        cases assertObject (mapGet body "execution_payload") with
        | none => rfl
        | some payload => rfl

theorem readBlockHash_of_not_shape (jResp : JObject) (h : hasExpectedShape jResp = false) :
    readBlockHash jResp = none := by
  rw [readBlockHash_eq]
  unfold hasExpectedShape at h
  cases hv : valueAt jResp ["data", "message", "body", "execution_payload", "block_hash"] with
  | none => rfl
  | some v =>
    rw [hv] at h
    cases v with
    | str x => simp at h
    | null => rfl
    | bool b => rfl
    | num q => rfl
    | arr l => rfl
    | obj m => rfl

theorem readBlockHash_of_shape (jResp : JObject) (h : hasExpectedShape jResp = true) :
    ∃ blockHash, readBlockHash jResp = some blockHash := by
  rw [readBlockHash_eq]
  unfold hasExpectedShape at h
  cases hv : valueAt jResp ["data", "message", "body", "execution_payload", "block_hash"] with
  | none => rw [hv] at h; simp at h
  | some v =>
    rw [hv] at h
    cases v with
    | str x => exact ⟨x, rfl⟩
    | null => simp at h
    | bool b => simp at h
    | num q => simp at h
    | arr l => simp at h
    | obj m => simp at h

/-- On a body of the expected shape that carries no code, or a numeric code
other than 404, `getBlockForSlot` returns the block hash, no error and
`notFound = false`. -/
theorem getBlockForSlot_of_shape (w : World) (slot : Int) (jResp : JObject)
    (hslot : w.getSlot slot = Except.ok jResp)
    (hshape : hasExpectedShape jResp = true)
    (hcode : mapGet jResp "code" = none ∨
      ∃ q, mapGet jResp "code" = some (JValue.num q) ∧ q ≠ 404) :
    ∃ blockHash, readBlockHash jResp = some blockHash ∧
      getBlockForSlot w slot = some (blockHash, none, false) := by
  obtain ⟨blockHash, hb⟩ := readBlockHash_of_shape jResp hshape
  refine ⟨blockHash, hb, ?_⟩
  rcases hcode with hc | ⟨q, hc, hq⟩
  · simp [getBlockForSlot, hslot, hc, hb]
  · simp [getBlockForSlot, hslot, hc, hq, hb]

/-- Where every receipt is present with a price and none has its top gas bit
set, the total is the sum of `gasUsed * effectiveGasPrice` over the
transactions. -/
theorem transactionFees_eq_specFee_sum (w : World) (s : State) (block : Block)
    (hsplit : (w.chunksSplit block.Transactions 10).flatten = block.Transactions)
    (h : ∀ tx ∈ block.Transactions,
      ∃ r price, receiptOf w s tx.Hash = some r ∧ r.EffectiveGasPrice = some price ∧
        r.GasUsed < 2 ^ 63) :
    ∃ s1, transactionFees w s block =
      some ((block.Transactions.map fun tx =>
        ((receiptOf w s tx.Hash).bind specFee).getD 0).sum, s1) := by
  have h1 : ∀ tx ∈ block.Transactions, (feeOf w s tx.Hash).isSome = true := by
    intro tx htx
    obtain ⟨r, price, hr, hp, _⟩ := h tx htx
    simp [feeOf, hr, sentFee, hp]
  obtain ⟨s1, e1, _⟩ := transactionFees_eq_sum w s block hsplit h1
  refine ⟨s1, ?_⟩
  rw [e1]
  have hmap : block.Transactions.map (sentFeeOf w s) =
      block.Transactions.map fun tx => ((receiptOf w s tx.Hash).bind specFee).getD 0 := by
    apply List.map_congr_left
    intro tx htx
    obtain ⟨r, price, hr, hp, hg⟩ := h tx htx
    simp [sentFeeOf, feeOf, hr, sentFee_eq_specFee r hg]
  rw [hmap]

/-- A receipt without a price makes the aggregation fault as a missing
receipt does. -/
theorem transactionFees_no_price :
    sampleWorld.transactionReceipt 8 = some { GasUsed := 21000, EffectiveGasPrice := none } ∧
    transactionFees sampleWorld emptyState noPriceBlock = none ∧
    blockReward sampleWorld emptyState noPriceBlock = none := by
  decide

/-! ## Lemmas: the MEV fields of the response -/

/-- Where the fee aggregation returns (every transaction has a receipt with a
price), a block of a registered builder with recoverable senders gets
`Mev = true` and `MevReward = M / 10^9`, `M` being the largest value among the
transactions sent by the coinbase and `0` when there is none. -/
theorem blockReward_builder_block (w : World) (s : State) (block : Block)
    (hkey : (mapGet w.mev_builders (lowerHex block.Coinbase)).isSome = true)
    (hfrom : ∀ tx ∈ block.Transactions, tx.From.isSome = true)
    (hsplit : (w.chunksSplit block.Transactions 10).flatten = block.Transactions)
    (hfee : ∀ tx ∈ block.Transactions, (feeOf w s tx.Hash).isSome = true) :
    ∃ (r : BlockRewardResponse) (s1 : State) (M : Nat),
      blockReward w s block = some (r, s1) ∧ r.Mev = true ∧
      r.MevReward = ((M / 10 ^ 9 : Nat) : Int) ∧
      (coinbaseValues block = [] → M = 0) ∧
      (coinbaseValues block ≠ [] → M ∈ coinbaseValues block) ∧
      (∀ v ∈ coinbaseValues block, v ≤ M) := by
  obtain ⟨s1, hT, _⟩ := transactionFees_eq_sum w s block hsplit hfee
  have hm : isMev w block = true := (isMev_eq_true_iff w block).mpr hkey
  obtain ⟨M, hMv, _, hall, hmem⟩ := findMevLoop_spec block.Coinbase block.Transactions 0 hfrom
  have hmr : (if isMev w block = true then findMevRewardTransaction block else some 0)
      = some (M : Int) := by
    simp only [hm, if_true, findMevRewardTransaction]
    exact_mod_cast hMv
  refine ⟨_, s1, M, blockReward_eq w s s1 block _ (M : Int) hmr hT, hm, ?_, ?_, ?_, hall⟩
  · show (M : Int) / 10 ^ 9 = ((M / 10 ^ 9 : Nat) : Int)
    push_cast
    rfl
  · intro hnil
    rcases hmem with h0 | hin
    · exact h0
    · unfold coinbaseValues at hnil
      rw [hnil] at hin
      cases hin
  · intro hne
    rcases hmem with h0 | hin
    · obtain ⟨v, hv⟩ := List.exists_mem_of_ne_nil _ hne
      have hle : v ≤ M := hall v hv
      have hv0 : v = M := by omega
      rw [← hv0]
      exact hv
    · exact hin

/-- The builder block of the sample world holds two transfers sent by the
builder, of 3000000005 and 7000000001 wei; the MEV reward is 7 (their sum
would give 10). -/
theorem blockReward_builder_block_sample :
    coinbaseValues builderBlock = [3000000005, 7000000001] ∧
    ∃ r s1, blockReward sampleWorld emptyState builderBlock = some (r, s1) ∧
      r.Mev = true ∧ r.MevReward = 7 := by
  have hv : coinbaseValues builderBlock = [3000000005, 7000000001] := by decide
  refine ⟨hv, ?_⟩
  obtain ⟨r, s1, M, h1, h2, h3, _, h5, h6⟩ :=
    blockReward_builder_block sampleWorld emptyState builderBlock
      (by decide) (by decide) (sampleWorld_chunksSplit _) (by decide)
  rw [hv] at h5 h6
  have hM : M = 7000000001 := by
    have hin := h5 (by simp)
    have hge := h6 7000000001 (by simp)
    simp only [List.mem_cons, List.mem_singleton, List.not_mem_nil, or_false] at hin
    omega
  subst hM
  exact ⟨r, s1, h1, h2, by rw [h3]; decide⟩

/-- Where the fee aggregation returns (every transaction has a receipt with a
price), a block of an unregistered fee recipient gets `Mev = false` and
`MevReward = 0`, whatever its transactions are. -/
theorem blockReward_unregistered (w : World) (s : State) (block : Block)
    (hkey : mapGet w.mev_builders (lowerHex block.Coinbase) = none)
    (hsplit : (w.chunksSplit block.Transactions 10).flatten = block.Transactions)
    (hfee : ∀ tx ∈ block.Transactions, (feeOf w s tx.Hash).isSome = true) :
    ∃ r s1, blockReward w s block = some (r, s1) ∧ r.Mev = false ∧ r.MevReward = 0 := by
  obtain ⟨s1, hT, _⟩ := transactionFees_eq_sum w s block hsplit hfee
  have hm : isMev w block = false := by simp [isMev, hkey]
  have hmr : (if isMev w block = true then findMevRewardTransaction block else some 0)
      = some 0 := by simp [hm]
  exact ⟨_, s1, blockReward_eq w s s1 block _ 0 hmr hT, hm, by norm_num⟩

/-- A block of an unregistered fee recipient that holds a transfer of `10^30`
wei sent by the fee recipient and a transaction without recoverable sender. -/
theorem blockReward_unregistered_sample :
    coinbaseValues plainBlock = [1000000000000000000000000000000] ∧
    mapGet sampleWorld.mev_builders (lowerHex plainBlock.Coinbase) = none ∧
    ∃ r s1, blockReward sampleWorld emptyState plainBlock = some (r, s1) ∧
      r.Mev = false ∧ r.MevReward = 0 :=
  ⟨by decide, by decide,
   blockReward_unregistered sampleWorld emptyState plainBlock (by decide)
     (sampleWorld_chunksSplit _) (by decide)⟩

/-! ## The claims -/

/-- C1 (counterexample): for a block without transactions whose header burns
one wei after the merge, `T - B + S = 0 - 1 + 0 = -1`; `blockReward` answers
`-1`, while the quotient of `-1` by `10^9` with the remainder truncated is `0`. -/
theorem blockReward_deficit_not_truncated :
    transactionFees sampleWorld emptyState deficitBlock = some (0, emptyState) ∧
    calculateBurntFees deficitBlock = 1 ∧
    calculateBlockReward (int64OfUint64 deficitBlock.Number) = 0 ∧
    blockReward sampleWorld emptyState deficitBlock =
      some ({ Mev := false, BlockReward := -1, MevReward := 0 }, emptyState) ∧
    Int.tdiv (0 - 1 + 0) (10 ^ 9) = 0 := by
  decide

/-- C1 (amended): whenever the fee aggregation of a block returns a total `T`
(and, for a block of a registered builder, every sender is recoverable),
`blockReward` returns, and its `BlockReward` is the quotient of Euclidean
division of `T - B + S` by `10^9`, that is the floor of the exact quotient:
`BlockReward * 10^9 ≤ T - B + S < (BlockReward + 1) * 10^9`. It is the quotient
with truncated remainder whenever `T - B + S` is not negative. -/
theorem blockReward_blockReward_floor (w : World) (s s1 : State) (block : Block) (T : Int)
    (hT : transactionFees w s block = some (T, s1))
    (hM : isMev w block = true → ∀ tx ∈ block.Transactions, tx.From.isSome = true) :
    ∃ r, blockReward w s block = some (r, s1) ∧
      r.BlockReward =
        (T - calculateBurntFees block + calculateBlockReward (int64OfUint64 block.Number))
          / 10 ^ 9 ∧
      r.BlockReward * 10 ^ 9 ≤
        T - calculateBurntFees block + calculateBlockReward (int64OfUint64 block.Number) ∧
      T - calculateBurntFees block + calculateBlockReward (int64OfUint64 block.Number)
        < (r.BlockReward + 1) * 10 ^ 9 ∧
      (0 ≤ T - calculateBurntFees block + calculateBlockReward (int64OfUint64 block.Number) →
        r.BlockReward = Int.tdiv
          (T - calculateBurntFees block + calculateBlockReward (int64OfUint64 block.Number))
          (10 ^ 9)) := by
  have hmev : ∃ mevReward,
      (if isMev w block = true then findMevRewardTransaction block else some 0)
        = some mevReward := by
    by_cases hm : isMev w block = true
    · obtain ⟨M, hMv, _⟩ := findMevLoop_spec block.Coinbase block.Transactions 0 (hM hm)
      exact ⟨(M : Int), by simp only [hm, if_true, findMevRewardTransaction]; exact_mod_cast hMv⟩
    · exact ⟨0, by simp [hm]⟩
  obtain ⟨mevReward, hmr⟩ := hmev
  refine ⟨_, blockReward_eq w s s1 block T mevReward hmr hT, ?_, ?_, ?_, ?_⟩
  · rfl
  · exact Int.ediv_mul_le _ (by norm_num)
  · exact Int.lt_ediv_add_one_mul_self _ (by norm_num)
  · intro h0
    exact (Int.tdiv_eq_ediv h0 (by norm_num)).symm

/-- C1 (witness): the amended statement at the builder block of the sample
world, where `T - B + S = 399000000000000 - 315000000000000 + 0`. -/
theorem blockReward_blockReward_floor_witness :
    transactionFees sampleWorld emptyState builderBlock
        = some (399000000000000, builderStateAfter) ∧
    ∃ r, blockReward sampleWorld emptyState builderBlock = some (r, builderStateAfter) ∧
      r.BlockReward = 84000 := by
  refine ⟨by decide, ?_⟩
  obtain ⟨r, h1, h2, _⟩ :=
    blockReward_blockReward_floor sampleWorld emptyState builderStateAfter builderBlock
      399000000000000 (by decide) (by decide)
  exact ⟨r, h1, by rw [h2]; decide⟩

/-- C2: for every integer block number `n`, `calculateBlockReward n` is
`5*10^18` when `0 < n < 4370000`, `3*10^18` when `4370000 ≤ n < 7280000`,
`2*10^18` when `7280000 ≤ n ≤ 15537392`, and `0` when `n > 15537392` or
`n ≤ 0`; in particular at the six boundary blocks. -/
theorem calculateBlockReward_eras (n : Int) :
    (0 < n ∧ n < 4370000 → calculateBlockReward n = 5 * 10 ^ 18) ∧
    (4370000 ≤ n ∧ n < 7280000 → calculateBlockReward n = 3 * 10 ^ 18) ∧
    (7280000 ≤ n ∧ n ≤ 15537392 → calculateBlockReward n = 2 * 10 ^ 18) ∧
    (n > 15537392 ∨ n ≤ 0 → calculateBlockReward n = 0) ∧
    calculateBlockReward 4369999 = 5 * 10 ^ 18 ∧
    calculateBlockReward 4370000 = 3 * 10 ^ 18 ∧
    calculateBlockReward 7279999 = 3 * 10 ^ 18 ∧
    calculateBlockReward 7280000 = 2 * 10 ^ 18 ∧
    calculateBlockReward 15537392 = 2 * 10 ^ 18 ∧
    calculateBlockReward 15537393 = 0 := by
  refine ⟨?_, ?_, ?_, ?_, by decide, by decide, by decide, by decide, by decide, by decide⟩
  · rintro ⟨h1, h2⟩
    have hc : n < byzantiumBlockNumber ∧ n > 0 := ⟨by unfold byzantiumBlockNumber; omega, h1⟩
    simp only [calculateBlockReward, if_pos hc]
    norm_num
  · rintro ⟨h1, h2⟩
    have hc1 : ¬ (n < byzantiumBlockNumber ∧ n > 0) := by
      unfold byzantiumBlockNumber; omega
    have hc2 : n ≥ byzantiumBlockNumber ∧ n < constantinopleBlockNumber :=
      ⟨by unfold byzantiumBlockNumber; omega, by unfold constantinopleBlockNumber; omega⟩
    simp only [calculateBlockReward, if_neg hc1, if_pos hc2]
    norm_num
  · rintro ⟨h1, h2⟩
    have hc1 : ¬ (n < byzantiumBlockNumber ∧ n > 0) := by
      unfold byzantiumBlockNumber; omega
    have hc2 : ¬ (n ≥ byzantiumBlockNumber ∧ n < constantinopleBlockNumber) := by
      unfold constantinopleBlockNumber; omega
    have hc3 : n ≥ constantinopleBlockNumber ∧ n ≤ theMergeBlockNumber :=
      ⟨by unfold constantinopleBlockNumber; omega, by unfold theMergeBlockNumber; omega⟩
    simp only [calculateBlockReward, if_neg hc1, if_neg hc2, if_pos hc3]
    norm_num
  · intro h
    have hc1 : ¬ (n < byzantiumBlockNumber ∧ n > 0) := by
      unfold byzantiumBlockNumber; omega
    have hc2 : ¬ (n ≥ byzantiumBlockNumber ∧ n < constantinopleBlockNumber) := by
      unfold byzantiumBlockNumber constantinopleBlockNumber; omega
    have hc3 : ¬ (n ≥ constantinopleBlockNumber ∧ n ≤ theMergeBlockNumber) := by
      unfold constantinopleBlockNumber theMergeBlockNumber; omega
    simp only [calculateBlockReward, if_neg hc1, if_neg hc2, if_neg hc3, ite_self]

/-- C2 (witness): one block number inside each era and one on each side of
the range. -/
theorem calculateBlockReward_eras_witness :
    calculateBlockReward 4360100 = 5 * 10 ^ 18 ∧
    calculateBlockReward 7270000 = 3 * 10 ^ 18 ∧
    calculateBlockReward 15537300 = 2 * 10 ^ 18 ∧
    calculateBlockReward 19992375 = 0 ∧
    calculateBlockReward (-5) = 0 :=
  ⟨(calculateBlockReward_eras 4360100).1 ⟨by decide, by decide⟩,
   (calculateBlockReward_eras 7270000).2.1 ⟨by decide, by decide⟩,
   (calculateBlockReward_eras 15537300).2.2.1 ⟨by decide, by decide⟩,
   (calculateBlockReward_eras 19992375).2.2.2.1 (Or.inl (by decide)),
   (calculateBlockReward_eras (-5)).2.2.2.1 (Or.inr (by decide))⟩

/-- C3 (failing input): a block of the registered builder, every sender
recoverable, with a transfer of 3000000005 wei sent by the builder; the receipt
fetch of its second transaction (hash 4) fails. The MEV scan finds 3000000005,
but `blockReward` does not return (nil dereference in `transactionFee`, as in
C8); the specification asks for `Mev = true` and `MevReward = 3`. -/
theorem blockReward_builder_lost_receipt :
    (mapGet sampleWorld.mev_builders (lowerHex builderLostReceiptBlock.Coinbase)).isSome
      = true ∧
    (∀ tx ∈ builderLostReceiptBlock.Transactions, tx.From.isSome = true) ∧
    coinbaseValues builderLostReceiptBlock = [3000000005] ∧
    isMev sampleWorld builderLostReceiptBlock = true ∧
    findMevRewardTransaction builderLostReceiptBlock = some 3000000005 ∧
    sampleWorld.transactionReceipt 4 = none ∧
    transactionFees sampleWorld emptyState builderLostReceiptBlock = none ∧
    blockReward sampleWorld emptyState builderLostReceiptBlock = none := by
  decide

/-- C4 (failing input): a block of an unregistered fee recipient with a
transfer of `10^30` wei sent by the fee recipient; the receipt fetch of its
second transaction (hash 4) fails. `blockReward` does not return (nil
dereference in `transactionFee`, as in C8); the specification asks for
`Mev = false` and `MevReward = 0`. -/
theorem blockReward_unregistered_lost_receipt :
    mapGet sampleWorld.mev_builders (lowerHex plainLostReceiptBlock.Coinbase) = none ∧
    coinbaseValues plainLostReceiptBlock = [1000000000000000000000000000000] ∧
    isMev sampleWorld plainLostReceiptBlock = false ∧
    sampleWorld.transactionReceipt 4 = none ∧
    transactionFees sampleWorld emptyState plainLostReceiptBlock = none ∧
    blockReward sampleWorld emptyState plainLostReceiptBlock = none := by
  decide

/-- C5 (failing input): a header with base fee 1 and gas used `2^63`, a value
of the unsigned 64-bit field. `calculateBurntFees` converts the gas to `int64`
and answers `-2^63`; the product `baseFee * gasUsed` is `2^63`. -/
theorem calculateBurntFees_top_bit :
    topBitBlock.BaseFee = some 1 ∧
    topBitBlock.GasUsed = 2 ^ 63 ∧
    topBitBlock.GasUsed < 2 ^ 64 ∧
    calculateBurntFees topBitBlock = -9223372036854775808 ∧
    calculateBurntFees topBitBlock ≠ (1 : Int) * ((2 ^ 63 : Nat) : Int) := by
  decide

/-- C6 (failing input): a block whose only transaction has a receipt with
gas used `2^63` and effective gas price 1. `transactionFees` converts the gas
to `int64` and answers `-2^63`; `gasUsed * effectiveGasPrice` is `2^63`. -/
theorem transactionFees_top_bit_receipt :
    receiptOf sampleWorld emptyState 9
      = some { GasUsed := 9223372036854775808, EffectiveGasPrice := some 1 } ∧
    (transactionFees sampleWorld emptyState topBitReceiptBlock).map Prod.fst
      = some (-9223372036854775808) ∧
    specFee { GasUsed := 9223372036854775808, EffectiveGasPrice := some 1 }
      = some 9223372036854775808 := by
  decide

/-- C7: when the body of the block-by-slot response carries code 404,
`getBlockForSlot` returns the empty hash, no error and `notFound = true`, and
`rewardForSlot` returns the skipped-slot result (`Mev = false`, both rewards 0)
with no error and `notFound = true`, in an unchanged state: no request has
been sent to the execution client. -/
theorem rewardForSlot_skipped (w : World) (s : State) (slot : Int) (jResp : JObject)
    (hslot : w.getSlot slot = Except.ok jResp)
    (hcode : mapGet jResp "code" = some (JValue.num 404)) :
    getBlockForSlot w slot = some ("", none, true) ∧
    rewardForSlot w s slot =
      some (({ Mev := false, BlockReward := 0, MevReward := 0 }, none, true), s) := by
  have h1 : getBlockForSlot w slot = some ("", none, true) := by
    simp [getBlockForSlot, hslot, hcode]
  exact ⟨h1, by simp [rewardForSlot, h1, zeroResponse]⟩

/-- C7 (witness): the skipped slot 9208672 of the sample world. -/
theorem rewardForSlot_skipped_witness :
    getBlockForSlot sampleWorld 9208672 = some ("", none, true) ∧
    rewardForSlot sampleWorld emptyState 9208672 =
      some (({ Mev := false, BlockReward := 0, MevReward := 0 }, none, true), emptyState) :=
  rewardForSlot_skipped sampleWorld emptyState 9208672 skippedBody (by rfl) (by rfl)

/-- C8 (failing input): a block of two transactions, the receipt of the first
served, the receipt fetch of the second failing. `transactionFees` does not
return (nil dereference in `transactionFee`), and neither does `blockReward`;
the specification asks for the fee of the first transaction,
`147000000000000`. -/
theorem transactionFees_lost_receipt :
    sampleWorld.transactionReceipt 4 = none ∧
    (receiptOf sampleWorld emptyState 1).bind specFee = some 147000000000000 ∧
    getTransactionReceipt sampleWorld emptyState { Hash := 4, From := some 77, Value := 0 }
      = (none, { receiptCache := [(4, none)], receiptCalls := [4], blockCalls := [] }) ∧
    transactionFees sampleWorld emptyState lostReceiptBlock = none ∧
    blockReward sampleWorld emptyState lostReceiptBlock = none := by
  decide

/-- C9 (counterexample): the decoded body with code 500 and a message carries
no code 404 and lacks the expected shape; `getBlockForSlot` does not return an
error, it faults, and so does `rewardForSlot`. -/
theorem getBlockForSlot_error_code_faults :
    sampleWorld.getSlot 500 = Except.ok serverErrorBody ∧
    mapGet serverErrorBody "code" = some (JValue.num 500) ∧
    hasExpectedShape serverErrorBody = false ∧
    getBlockForSlot sampleWorld 500 = none ∧
    rewardForSlot sampleWorld emptyState 500 = none := by
  refine ⟨rfl, rfl, by decide, by decide, by decide⟩

/-- C9 (amended): for a decoded body that carries no code 404 and lacks the
expected shape, `getBlockForSlot` does not return: it faults on a type
assertion, and so does `rewardForSlot`. `getBlockForSlot` returns a non-nil
error exactly when the request or the decoding failed: then it returns that
error with the empty hash and `notFound = false`, and `rewardForSlot` returns
the error with the zero-valued result in an unchanged state; and whenever it
returns a non-nil error, that error is the one of the failed request or
decoding. -/
theorem getBlockForSlot_unexpected_shape (w : World) (s : State) (slot : Int) :
    (∀ jResp, w.getSlot slot = Except.ok jResp →
      mapGet jResp "code" ≠ some (JValue.num 404) →
      hasExpectedShape jResp = false →
      getBlockForSlot w slot = none ∧ rewardForSlot w s slot = none) ∧
    (∀ err, w.getSlot slot = Except.error err →
      getBlockForSlot w slot = some ("", some err, false) ∧
      rewardForSlot w s slot = some ((zeroResponse, some err, false), s)) ∧
    (∀ blockHash err notFound,
      getBlockForSlot w slot = some (blockHash, some err, notFound) →
      w.getSlot slot = Except.error err ∧ blockHash = "" ∧ notFound = false) := by
  refine ⟨?_, ?_, ?_⟩
  · intro jResp hslot hcode hshape
    have hread := readBlockHash_of_not_shape jResp hshape
    have h1 : getBlockForSlot w slot = none := by
      cases hc : mapGet jResp "code" with
      | none => simp [getBlockForSlot, hslot, hc, hread]
      | some v =>
        cases v with
        | num q =>
          have hq : q ≠ 404 := by
            intro h404
            apply hcode
            rw [hc, h404]
          simp [getBlockForSlot, hslot, hc, hq, hread]
        | null => simp [getBlockForSlot, hslot, hc]
        | bool b => simp [getBlockForSlot, hslot, hc]
        | str x => simp [getBlockForSlot, hslot, hc]
        | arr l => simp [getBlockForSlot, hslot, hc]
        | obj m => simp [getBlockForSlot, hslot, hc]
    exact ⟨h1, by simp [rewardForSlot, h1]⟩
  · intro err hslot
    have h1 : getBlockForSlot w slot = some ("", some err, false) := by
      simp [getBlockForSlot, hslot]
    exact ⟨h1, by simp [rewardForSlot, h1]⟩
  · intro blockHash err notFound hret
    cases hs : w.getSlot slot with
    | error e =>
      simp only [getBlockForSlot, hs, Option.some.injEq, Prod.mk.injEq] at hret
      obtain ⟨h1, h2, h3⟩ := hret
      exact ⟨by rw [h2], h1.symm, h3.symm⟩
    | ok jResp =>
      exfalso
      cases hc : mapGet jResp "code" with
      | none => simp [getBlockForSlot, hs, hc] at hret
      | some v =>
        cases v with
        | num q =>
          by_cases hq : q = 404
          · simp [getBlockForSlot, hs, hc, hq] at hret
          · simp [getBlockForSlot, hs, hc, hq] at hret
        | null => simp [getBlockForSlot, hs, hc] at hret
        | bool b => simp [getBlockForSlot, hs, hc] at hret
        | str x => simp [getBlockForSlot, hs, hc] at hret
        | arr l => simp [getBlockForSlot, hs, hc] at hret
        | obj m => simp [getBlockForSlot, hs, hc] at hret

/-- C9 (witness): slot 500 of the sample world answers a body with code 500,
slot 1 a failed request. -/
theorem getBlockForSlot_unexpected_shape_witness :
    (getBlockForSlot sampleWorld 500 = none ∧
      rewardForSlot sampleWorld emptyState 500 = none) ∧
    (getBlockForSlot sampleWorld 1 = some ("", some "connection refused", false) ∧
      rewardForSlot sampleWorld emptyState 1
        = some ((zeroResponse, some "connection refused", false), emptyState)) ∧
    (sampleWorld.getSlot 1 = Except.error "connection refused" ∧
      "" = "" ∧ false = false) :=
  ⟨(getBlockForSlot_unexpected_shape sampleWorld emptyState 500).1 serverErrorBody rfl
      (by simp [serverErrorBody, mapGet]) (by decide),
   (getBlockForSlot_unexpected_shape sampleWorld emptyState 1).2.1 "connection refused" rfl,
   (getBlockForSlot_unexpected_shape sampleWorld emptyState 1).2.2 "" "connection refused"
      false (by decide)⟩

/-- C10: if the cache holds an entry for the hash of the transaction,
`getTransactionReceipt` returns that entry and leaves the whole state unchanged
(cache and record of client calls); otherwise it returns the answer of the
client, has sent exactly that one request, and afterwards `ReceiptCache.Get`
returns the answer with `found = true` at that hash and what it returned before
at every other key. A second lookup returns the same receipt and changes
nothing, so it sends no request. -/
theorem getTransactionReceipt_cached (w : World) (s : State) (tx : Transaction) :
    (∀ val, ReceiptCache.Get s.receiptCache tx.Hash = (val, true) →
      getTransactionReceipt w s tx = (val, s)) ∧
    ((ReceiptCache.Get s.receiptCache tx.Hash).2 = false →
      (getTransactionReceipt w s tx).1 = w.transactionReceipt tx.Hash ∧
      (getTransactionReceipt w s tx).2.receiptCalls = s.receiptCalls ++ [tx.Hash] ∧
      (getTransactionReceipt w s tx).2.blockCalls = s.blockCalls ∧
      ReceiptCache.Get (getTransactionReceipt w s tx).2.receiptCache tx.Hash
        = (w.transactionReceipt tx.Hash, true) ∧
      ∀ k, k ≠ tx.Hash →
        ReceiptCache.Get (getTransactionReceipt w s tx).2.receiptCache k
          = ReceiptCache.Get s.receiptCache k) ∧
    getTransactionReceipt w (getTransactionReceipt w s tx).2 tx
      = ((getTransactionReceipt w s tx).1, (getTransactionReceipt w s tx).2) := by
  refine ⟨?_, ?_, ?_⟩
  · intro val hval
    rw [receiptCache_get_eq] at hval
    cases hm : mapGet s.receiptCache tx.Hash with
    | none => rw [hm] at hval; simp at hval
    | some v =>
      rw [hm] at hval
      simp only [Option.getD_some, Option.isSome_some, Prod.mk.injEq, and_true] at hval
      subst hval
      exact getTransactionReceipt_hit w s tx v hm
  · intro hmiss
    rw [receiptCache_get_eq] at hmiss
    have hm : mapGet s.receiptCache tx.Hash = none := by
      cases hm : mapGet s.receiptCache tx.Hash with
      | none => rfl
      | some v => rw [hm] at hmiss; simp at hmiss
    rw [getTransactionReceipt_miss w s tx hm]
    refine ⟨rfl, rfl, rfl, ?_, ?_⟩
    · simp [ReceiptCache.Get, mapGet]
    · intro k hk
      have hk2 : ¬ tx.Hash = k := fun h => hk h.symm
      simp [ReceiptCache.Get, mapGet, hk2]
  · cases hm : mapGet s.receiptCache tx.Hash with
    | some v =>
      rw [getTransactionReceipt_hit w s tx v hm]
      exact getTransactionReceipt_hit w s tx v hm
    | none =>
      rw [getTransactionReceipt_miss w s tx hm]
      apply getTransactionReceipt_hit
      simp [mapGet]

/-- C10 (witness): the lookup of hash 1 in the state that holds its receipt,
and in the empty state. -/
theorem getTransactionReceipt_cached_witness :
    getTransactionReceipt sampleWorld builderStateAfter
        { Hash := 1, From := some 77, Value := 5000000000000000000 }
      = (some { GasUsed := 21000, EffectiveGasPrice := some 7000000000 }, builderStateAfter) ∧
    (getTransactionReceipt sampleWorld emptyState
        { Hash := 1, From := some 77, Value := 5000000000000000000 }).1
      = sampleWorld.transactionReceipt 1 :=
  ⟨(getTransactionReceipt_cached sampleWorld builderStateAfter
      { Hash := 1, From := some 77, Value := 5000000000000000000 }).1 _ (by decide),
   ((getTransactionReceipt_cached sampleWorld emptyState
      { Hash := 1, From := some 77, Value := 5000000000000000000 }).2.1 (by decide)).1⟩

/-! ## Lemmas: sync-committee cache -/

theorem committeeCache_get_eq (cc : CommitteeCache) (key : Int) :
    CommitteeCache.Get cc key = ((mapGet cc key).getD none, (mapGet cc key).isSome) := by
  unfold CommitteeCache.Get
  cases mapGet cc key <;> rfl

theorem committeeCache_miss (cc : CommitteeCache) (key : Int)
    (h : (CommitteeCache.Get cc key).2 = false) : mapGet cc key = none := by
  rw [committeeCache_get_eq] at h
  cases hm : mapGet cc key with
  | none => rfl
  | some v => rw [hm] at h; simp at h

theorem getSyncCommitteeForSlot_hit (endpoint : SyncCommitteeEndpoint) (cs : CommitteeState)
    (slot : Int) (val : Option StringSet) (h : mapGet cs.syncCommitteeCache slot = some val) :
    getSyncCommitteeForSlot endpoint cs slot = some (val, cs) := by
  simp [getSyncCommitteeForSlot, CommitteeCache.Get, h]

theorem getSyncCommitteeForSlot_code_404 (endpoint : SyncCommitteeEndpoint)
    (cs : CommitteeState) (slot : Int) (jResp2 : JObject)
    (hmiss : mapGet cs.syncCommitteeCache slot = none)
    (hresp : endpoint slot = Except.ok jResp2)
    (hcode : mapGet jResp2 "code" = some (JValue.num 404)) :
    getSyncCommitteeForSlot endpoint cs slot =
      some (some newStringSet,
        { cs with syncCommitteeCalls := cs.syncCommitteeCalls ++ [slot] }) := by
  simp [getSyncCommitteeForSlot, CommitteeCache.Get, hmiss, hresp, hcode]

/-- The other path: a body without code whose validators are all strings is
turned into a set that is stored in the cache for the slot. -/
theorem getSyncCommitteeForSlot_stores (endpoint : SyncCommitteeEndpoint)
    (cs : CommitteeState) (slot : Int) (jResp2 data : JObject) (validators : List JValue)
    (validatorSet : StringSet)
    (hmiss : mapGet cs.syncCommitteeCache slot = none)
    (hresp : endpoint slot = Except.ok jResp2)
    (hcode : mapGet jResp2 "code" = none)
    (hdata : assertObject (mapGet jResp2 "data") = some data)
    (hvals : assertArray (mapGet data "validators") = some validators)
    (hset : addValidators validators newStringSet = some validatorSet) :
    ∃ cs1, getSyncCommitteeForSlot endpoint cs slot = some (some validatorSet, cs1) ∧
      CommitteeCache.Get cs1.syncCommitteeCache slot = (some validatorSet, true) := by
  refine ⟨{ syncCommitteeCache := (slot, some validatorSet) :: cs.syncCommitteeCache,
            syncCommitteeCalls := cs.syncCommitteeCalls ++ [slot] }, ?_, ?_⟩
  · simp [getSyncCommitteeForSlot, CommitteeCache.Get, hmiss, hresp, hcode,
      readAndStoreCommittee, hdata, hvals, hset, CommitteeCache.Set]
  · simp [CommitteeCache.Get, mapGet]

/-! ## The claim on the sync committee -/

/-- C11 (counterexample): slot 99999999 is not in the empty cache and the
endpoint answers code 404 for it. `getSyncCommitteeForSlot` returns the empty
set and leaves the cache empty: afterwards `Get` returns nil with
`found = false`, not the empty set with `found = true`, and the repeated call
sends a second request. -/
theorem getSyncCommitteeForSlot_not_found_not_cached :
    (CommitteeCache.Get emptyCommitteeState.syncCommitteeCache 99999999).2 = false ∧
    sampleEndpoint 99999999 = Except.ok committeeNotFoundBody ∧
    mapGet committeeNotFoundBody "code" = some (JValue.num 404) ∧
    getSyncCommitteeForSlot sampleEndpoint emptyCommitteeState 99999999
      = some (some [], { syncCommitteeCache := [], syncCommitteeCalls := [99999999] }) ∧
    CommitteeCache.Get ([] : CommitteeCache) 99999999 = (none, false) ∧
    CommitteeCache.Get ([] : CommitteeCache) 99999999 ≠ (some [], true) ∧
    getSyncCommitteeForSlot sampleEndpoint
        { syncCommitteeCache := [], syncCommitteeCalls := [99999999] } 99999999
      = some (some [], { syncCommitteeCache := [], syncCommitteeCalls := [99999999, 99999999] }) := by
  refine ⟨by decide, rfl, rfl, by decide, by decide, by decide, by decide⟩

/-- C11 (amended): for a slot that is not in the sync-committee cache and whose
sync-committee response carries code 404, `getSyncCommitteeForSlot` returns the
empty set after one request and leaves the cache as it was. Afterwards `Get`
at the slot still returns nil with `found = false`, and a repeated call is not
answered from the cache: it sends the request again and, on the same answer,
returns the empty set again, the cache still unchanged. -/
theorem getSyncCommitteeForSlot_not_found (endpoint : SyncCommitteeEndpoint)
    (cs : CommitteeState) (slot : Int) (jResp2 : JObject)
    (hmiss : (CommitteeCache.Get cs.syncCommitteeCache slot).2 = false)
    (hresp : endpoint slot = Except.ok jResp2)
    (hcode : mapGet jResp2 "code" = some (JValue.num 404)) :
    ∃ cs1 cs2,
      getSyncCommitteeForSlot endpoint cs slot = some (some newStringSet, cs1) ∧
      cs1.syncCommitteeCache = cs.syncCommitteeCache ∧
      cs1.syncCommitteeCalls = cs.syncCommitteeCalls ++ [slot] ∧
      CommitteeCache.Get cs1.syncCommitteeCache slot = (none, false) ∧
      getSyncCommitteeForSlot endpoint cs1 slot = some (some newStringSet, cs2) ∧
      cs2.syncCommitteeCache = cs.syncCommitteeCache ∧
      cs2.syncCommitteeCalls = cs.syncCommitteeCalls ++ [slot] ++ [slot] := by
  have hm := committeeCache_miss cs.syncCommitteeCache slot hmiss
  refine ⟨{ cs with syncCommitteeCalls := cs.syncCommitteeCalls ++ [slot] },
    { cs with syncCommitteeCalls := cs.syncCommitteeCalls ++ [slot] ++ [slot] },
    getSyncCommitteeForSlot_code_404 endpoint cs slot jResp2 hm hresp hcode, rfl, rfl, ?_,
    ?_, rfl, rfl⟩
  · rw [committeeCache_get_eq]
    simp [hm]
  · exact getSyncCommitteeForSlot_code_404 endpoint
      { cs with syncCommitteeCalls := cs.syncCommitteeCalls ++ [slot] } slot jResp2 hm hresp
      hcode

/-- C11 (witness): slot 99999999 at the sample endpoint, starting from the
state in which the committee of slot 9197117 is cached. -/
theorem getSyncCommitteeForSlot_not_found_witness :
    ∃ cs1 cs2,
      getSyncCommitteeForSlot sampleEndpoint
          { syncCommitteeCache := [(9197117, some ["11", "22"])],
            syncCommitteeCalls := [9197117] } 99999999
        = some (some [], cs1) ∧
      cs1.syncCommitteeCache = [(9197117, some ["11", "22"])] ∧
      cs1.syncCommitteeCalls = [9197117, 99999999] ∧
      CommitteeCache.Get cs1.syncCommitteeCache 99999999 = (none, false) ∧
      getSyncCommitteeForSlot sampleEndpoint cs1 99999999 = some (some [], cs2) ∧
      cs2.syncCommitteeCache = [(9197117, some ["11", "22"])] ∧
      cs2.syncCommitteeCalls = [9197117, 99999999, 99999999] :=
  getSyncCommitteeForSlot_not_found sampleEndpoint
    { syncCommitteeCache := [(9197117, some ["11", "22"])], syncCommitteeCalls := [9197117] }
    99999999 committeeNotFoundBody (by decide) rfl rfl

end EthValidatorApi
